import Mathlib

/-!
Verification development for the RNA-modification analysis pipeline.

Two components are embedded here, translated from the Python sources:

* the gene-region classifier used by the synthetic-data generators
  (`generate_enhanced_data.py`, `generate_realistic_bed`, lines 76-127, and
  `scripts/1_data_fetching.py`, `generate_mock_psi`, lines 136-189), and
* the windowed colocalization matcher
  (`scripts/4_venn_analysis.py`, class `ColocalizationAnalyzer`, and
  `scripts/analyze_real_data.py`, `RealDataAnalyzer.colocalization_analysis`).

Genomic coordinates are nonnegative Python integers and are modelled as `ℕ`.
Window sizes are arbitrary Python integers and are modelled as `ℤ`.
Floating-point site centers `(start + end) / 2` are exact half-integers on
these inputs; the executable embedding carries the doubled center
`start + end : ℕ` so that every definition is kernel-computable, and the
rational-valued center `centerQ` ties the integer encoding back to the exact
arithmetic of the source in the stated theorems.
-/

/-! ## Gene-region classifier (generate_enhanced_data.py) -/

/-- BED strand field, the enum written `+` / `-` in the Python dictionaries. -/
inductive Strand where
  | plus : Strand
  | minus : Strand
deriving DecidableEq, Repr

/-- One entry of `REAL_GENES` in `generate_enhanced_data.py`: chromosome,
genomic start, genomic end (written `stop` because `end` is reserved), strand.
The gene name plays no role in region arithmetic and is omitted. -/
structure Gene where
  chrom : String
  start : ℕ
  stop : ℕ
  strand : Strand
deriving DecidableEq, Repr

/-- `gene_length = gene[end] - gene[start]` (line 76). -/
def geneLength (g : Gene) : ℕ := g.stop - g.start

/-- `utr5_length = int(gene_length * 0.2)` (line 77).  The float product is
truncated toward zero; on the nonnegative lengths involved this is the exact
floor of L/5, i.e. `L / 5` in natural-number division. -/
def u5len (g : Gene) : ℕ := geneLength g / 5

/-- `cds_length = int(gene_length * 0.6)` (line 78), the exact floor of 3L/5. -/
def cdslen (g : Gene) : ℕ := 3 * geneLength g / 5

/-- `utr3_length = gene_length - utr5_length - cds_length` (line 79). -/
def u3len (g : Gene) : ℕ := geneLength g - u5len g - cdslen g

/-- Lines 81-86: `utr5_end = start + utr5_length` on the plus strand and
`utr5_end = end - utr3_length - cds_length` on the minus strand. -/
def utr5End (g : Gene) : ℕ :=
  match g.strand with
  | .plus => g.start + u5len g
  | .minus => g.stop - u3len g - cdslen g

/-- `cds_end = utr5_end + cds_length` (lines 83, 86). -/
def cdsEnd (g : Gene) : ℕ := utr5End g + cdslen g

/-- The transcript-region label attached to a generated site
(`feature` column values `5UTR` / `CDS` / `3UTR`). -/
inductive Region where
  | utr5 : Region
  | cds : Region
  | utr3 : Region
deriving DecidableEq, Repr

/-- The half-open interval `[lo, hi)` from which `generate_realistic_bed`
draws a position for each region label (lines 93-113): the bounds handed to
`np.random.randint`.  On the plus strand the 5-prime UTR is
`[start, utr5_end)`, the CDS `[utr5_end, min(cds_end, utr5_end+cds_length))`
and the 3-prime UTR `[cds_end, end)`; on the minus strand the 5-prime UTR is
`[cds_end, end)` and the 3-prime UTR `[start, utr5_end)`. -/
def regionBounds (g : Gene) (r : Region) : ℕ × ℕ :=
  match r with
  | .utr5 =>
    match g.strand with
    | .plus => (g.start, utr5End g)
    | .minus => (cdsEnd g, g.stop)
  | .cds => (utr5End g, min (cdsEnd g) (utr5End g + cdslen g))
  | .utr3 =>
    match g.strand with
    | .plus => (cdsEnd g, g.stop)
    | .minus => (g.start, utr5End g)

/-- The region sub-interval as a finite set of genomic positions. -/
def regionIco (g : Gene) (r : Region) : Finset ℕ :=
  Finset.Ico (regionBounds g r).1 (regionBounds g r).2

/-- `relative_pos = (pos - gene[start]) / gene_length` (line 116 of
`generate_enhanced_data.py` and lines 178/275 of `1_data_fetching.py`), a
float division computed identically on both strands. -/
def relative_pos (g : Gene) (p : ℕ) : ℚ :=
  ((p : ℚ) - (g.start : ℚ)) / ((g.stop : ℚ) - (g.start : ℚ))

/-- Errors a generation step can raise: `rangeError` is the `ValueError`
raised by `np.random.randint(low, high)` when `low >= high`, and
`divisionError` is the Python `ZeroDivisionError` of `relative_pos` when
`gene_length` is zero. -/
inductive GenError where
  | rangeError : GenError
  | divisionError : GenError
deriving DecidableEq, Repr

/-- The call `np.random.randint(low, high)` made when assigning a site to
region `r` of gene `g` (lines 93-113): it draws uniformly from `[low, high)`
and raises `ValueError` when the interval is empty.  The draw is modelled by
its pair of bounds; the random choice itself plays no role in any claim. -/
def samplePosBounds (g : Gene) (r : Region) : Except GenError (ℕ × ℕ) :=
  let b := regionBounds g r
  if b.1 < b.2 then Except.ok b else Except.error GenError.rangeError

/-- `relative_pos` with the division error made explicit: Python raises
`ZeroDivisionError` when `gene_length = 0`. -/
def relPosE (g : Gene) (p : ℕ) : Except GenError ℚ :=
  if geneLength g = 0 then Except.error GenError.divisionError
  else Except.ok (relative_pos g p)

/-! ## Gene-region structure of the mock generator (1_data_fetching.py) -/

/-- One gene record built by `generate_mock_psi` / `generate_mock_m6a`
(lines 136-153): the boundaries `utr5_end` and `cds_end` are laid out in raw
genomic order, with no strand field entering the computation. -/
structure MockGene where
  chrom : String
  gene_start : ℕ
  gene_length : ℕ
deriving DecidableEq, Repr

/-- `utr5_end = gene_start + utr5_length` with
`utr5_length = int(gene_length * 0.2)` (lines 142, 150). -/
def mockUtr5End (g : MockGene) : ℕ := g.gene_start + g.gene_length / 5

/-- `cds_end = gene_start + utr5_length + cds_length` (line 151). -/
def mockCdsEnd (g : MockGene) : ℕ :=
  g.gene_start + g.gene_length / 5 + 3 * g.gene_length / 5

/-- `gene_end = gene_start + gene_length` (line 149). -/
def mockGeneEnd (g : MockGene) : ℕ := g.gene_start + g.gene_length

/-- The `np.random.randint` bounds used for each region choice in
`generate_mock_psi` (lines 167-175): `[gene_start, utr5_end)`,
`[utr5_end, cds_end)`, `[cds_end, gene_end)`, on every strand. -/
def mockRegionBounds (g : MockGene) (r : Region) : ℕ × ℕ :=
  match r with
  | .utr5 => (g.gene_start, mockUtr5End g)
  | .cds => (mockUtr5End g, mockCdsEnd g)
  | .utr3 => (mockCdsEnd g, mockGeneEnd g)

/-- The mock-generator region sub-interval as a finite set. -/
def mockRegionIco (g : MockGene) (r : Region) : Finset ℕ :=
  Finset.Ico (mockRegionBounds g r).1 (mockRegionBounds g r).2

/-! Concrete genes used by witnesses and counterexamples.  `geneWASH7P` is
the second entry of `REAL_GENES` (a real minus-strand gene of length 15443,
not a multiple of 5); `geneTiny` is a length-1 gene exercising the
small-length edge case; `geneTen` is a length-1000 plus-strand gene. -/

def geneWASH7P : Gene := { chrom := "chr1", start := 14363, stop := 29806, strand := Strand.minus }

def geneTiny : Gene := { chrom := "chr1", start := 100, stop := 101, strand := Strand.plus }

def geneTen : Gene := { chrom := "chr3", start := 60001, stop := 61001, strand := Strand.plus }

def mockGeneEx : MockGene := { chrom := "chr5", gene_start := 1000000, gene_length := 1000 }

/-! ## Windowed colocalization matcher (scripts/4_venn_analysis.py) -/

/-- One row of the annotated site DataFrames consumed by
`ColocalizationAnalyzer`.  `strand` and `feature` are read through
`row.get(..., default)` in the source and so may be absent; `site_id` is the
column written by `__init__` (line 61-62) and is absent on the frames the
caller passes in. -/
structure SiteRow where
  chrom : String
  start : ℕ
  stop : ℕ
  strand : Option String
  feature : Option String
  site_id : Option String
deriving DecidableEq, Repr

/-- `self.psi_df[site_id] = [PSI_ + str(i) for i in range(len(psi_df))]`
(lines 61-62 of `4_venn_analysis.py`): writes a fresh id column into the
stored DataFrame, which is the very object the caller passed to `__init__`. -/
def assignIds (tag : String) (rows : List SiteRow) : List SiteRow :=
  rows.enum.map fun ir => { ir.2 with site_id := some (tag ++ toString ir.1) }

/-- Twice the site center: the source computes `(start + end) / 2` in float
(lines 83, 88, 92-93); the exact value is a half-integer, carried here as the
integer `start + end`. -/
def center2 (s : SiteRow) : ℕ := s.start + s.stop

/-- The exact rational site center `(start + end) / 2` of the source. -/
def centerQ (s : SiteRow) : ℚ := ((s.start : ℚ) + (s.stop : ℚ)) / 2

/-- The row filter of lines 86-89: same chromosome as the Psi site and
`abs(m6a_center - psi_center) <= window`.  On doubled centers the distance
condition is `|2cm - 2cp| <= 2w`, which is equivalent to the float comparison
of the source (proved in `sameChromNear_iff`). -/
def sameChromNear (p m : SiteRow) (w : ℤ) : Bool :=
  decide (m.chrom = p.chrom) &&
    decide ((((center2 m : ℤ) - (center2 p : ℤ)).natAbs : ℤ) ≤ 2 * w)

/-- The pair record built in lines 95-106.  `int()` truncates the nonnegative
float toward zero, i.e. takes its floor: `int(psi_center)` is
`(start + end) / 2` in natural division and `int(distance)` is
`|2cp - 2cm| / 2`.  `row.get(feature, Unknown)` and
`row.get(strand, +)` become `Option.getD`. -/
structure ColocalizedPair where
  psi_id : String
  m6a_id : String
  chrom : String
  psi_pos : ℕ
  m6a_pos : ℕ
  distance : ℕ
  psi_feature : String
  m6a_feature : String
  psi_strand : String
  m6a_strand : String
deriving DecidableEq, Repr

def mkPair (p m : SiteRow) : ColocalizedPair :=
  { psi_id := p.site_id.getD ""
    m6a_id := m.site_id.getD ""
    chrom := p.chrom
    psi_pos := center2 p / 2
    m6a_pos := center2 m / 2
    distance := ((center2 p : ℤ) - (center2 m : ℤ)).natAbs / 2
    psi_feature := p.feature.getD "Unknown"
    m6a_feature := m.feature.getD "Unknown"
    psi_strand := p.strand.getD "+"
    m6a_strand := m.strand.getD "+" }

/-- `find_colocalized_sites` (lines 69-116): for every Psi row, select the
m6A rows on the same chromosome within the window and emit one pair record
per selected row, in input order. -/
def findColocalizedSites (psi m6a : List SiteRow) (w : ℤ) : List ColocalizedPair :=
  psi.flatMap fun p => (m6a.filter fun m => sameChromNear p m w).map (mkPair p)

/-- The error taxonomy of spec section 7 for the matcher. -/
inductive MatchError where
  | invalidWindow : MatchError
deriving DecidableEq, Repr

/-- `find_colocalized_sites` embedded into the error monad of the spec error
taxonomy.  The source performs no validation of `self.window` and contains no
`raise` on this code path, so the embedding returns `ok` on every input,
including negative windows. -/
def findColocalizedSitesE (psi m6a : List SiteRow) (w : ℤ) :
    Except MatchError (List ColocalizedPair) :=
  Except.ok (findColocalizedSites psi m6a w)

/-- Modelled from the spec (section 4.2): the all-pairs matching contract
emits one `ColocalizedPair` for every combination of a site in A and a site
in B lying on the same chromosome whose center distance is at most the
window, scanning A in order and B in order within each A site. -/
def allPairsSpec (psi m6a : List SiteRow) (w : ℤ) : List ColocalizedPair :=
  psi.flatMap fun p => m6a.filterMap fun m =>
    if p.chrom = m.chrom ∧ |centerQ p - centerQ m| ≤ (w : ℚ) then some (mkPair p m)
    else none

/-- The Psi ids appearing in the emitted pairs (`colocalized_psi_ids`,
line 126). -/
def pairPsiIds (pairs : List ColocalizedPair) : List String :=
  pairs.map fun pr => pr.psi_id

/-- The m6A ids appearing in the emitted pairs (line 127). -/
def pairM6aIds (pairs : List ColocalizedPair) : List String :=
  pairs.map fun pr => pr.m6a_id

/-- `self.psi_only = self.psi_df[~self.psi_df[site_id].isin(colocalized_psi_ids)]`
(line 130). -/
def psiOnly (psi : List SiteRow) (pairs : List ColocalizedPair) : List SiteRow :=
  psi.filter fun r => !(pairPsiIds pairs).any fun i => decide (r.site_id = some i)

/-- `self.m6a_only = self.m6a_df[~self.m6a_df[site_id].isin(colocalized_m6a_ids)]`
(line 133). -/
def m6aOnly (m6a : List SiteRow) (pairs : List ColocalizedPair) : List SiteRow :=
  m6a.filter fun r => !(pairM6aIds pairs).any fun i => decide (r.site_id = some i)

/-- The analyzer pipeline as run by `main` (lines 370-381): construct the
analyzer (which writes the id columns into both stored frames), then find the
colocalized pairs.  The first component is the post-run state of the two
stored (caller-owned) site collections. -/
def colocRun (psi m6a : List SiteRow) (w : ℤ) :
    (List SiteRow × List SiteRow) × List ColocalizedPair :=
  let psi2 := assignIds "PSI_" psi
  let m6a2 := assignIds "M6A_" m6a
  ((psi2, m6a2), findColocalizedSites psi2 m6a2 w)

/-- `get_venn_counts` (lines 140-152), run after `categorize_sites` as in
`main`: `(len(psi_only), len(m6a_only), len(set(pairs[psi_id])))`.  The
third component counts the distinct Psi ids among the pairs. -/
def getVennCounts (psi m6a : List SiteRow) (w : ℤ) : ℕ × ℕ × ℕ :=
  let psi2 := assignIds "PSI_" psi
  let m6a2 := assignIds "M6A_" m6a
  let pairs := findColocalizedSites psi2 m6a2 w
  ((psiOnly psi2 pairs).length, (m6aOnly m6a2 pairs).length, (pairPsiIds pairs).dedup.length)

/-- Forgets the id column written by the analyzer, for stating which fields
survive a matcher run unchanged. -/
def stripId (r : SiteRow) : SiteRow := { r with site_id := none }

/-! ## Real-data matcher (scripts/analyze_real_data.py) -/

/-- One row of `psi_real_full.csv` as used by `colocalization_analysis`:
chromosome and BED interval, plus the two derived columns `chrom_std` and
`center` the method writes into the stored frame (lines 144-148). -/
structure RealPsiSite where
  chrom : String
  start : ℕ
  stop : ℕ
  chrom_std : Option String
  center : Option ℕ
deriving DecidableEq, Repr

/-- One row of `m6a_real_full.csv` as used by `colocalization_analysis`:
the matcher reads its `peak_pos` column (set to `(start + end) // 2` by the
parsing scripts) as the site center (line 149). -/
structure RealM6aSite where
  chrom : String
  start : ℕ
  stop : ℕ
  peak_pos : ℕ
  chrom_std : Option String
  center : Option ℕ
deriving DecidableEq, Repr

/-- The Python idiom of replacing the substring chr by the empty string in a
chromosome name: it removes every (non-overlapping,
left-to-right) occurrence of the substring `chr`.  `String.replace` is not
kernel-reducible in this toolchain, so the same scan is implemented directly
on the character list. -/
def replaceChr : List Char → List Char
  | 'c' :: 'h' :: 'r' :: rest => replaceChr rest
  | c :: rest => c :: replaceChr rest
  | [] => []

def stripChr (s : String) : String := String.mk (replaceChr s.data)

/-- Lines 144-148 applied to one Psi row: write `chrom_std` (the
`chr`-stripped chromosome name) and `center = (start + end) // 2` into the
stored frame. -/
def realInitPsi (r : RealPsiSite) : RealPsiSite :=
  { r with chrom_std := some (stripChr r.chrom), center := some ((r.start + r.stop) / 2) }

/-- Lines 144-149 applied to one m6A row: `chrom_std` as above and
`center = peak_pos`. -/
def realInitM6a (r : RealM6aSite) : RealM6aSite :=
  { r with chrom_std := some (stripChr r.chrom), center := some r.peak_pos }

/-- The pair dictionary appended at lines 170-175: standardized chromosome,
the two integer centers, and `distance = abs(psi_pos - m6a_pos)`. -/
structure RealPair where
  chrom : String
  psi_pos : ℕ
  m6a_pos : ℕ
  distance : ℕ
deriving DecidableEq, Repr

/-- `colocalization_analysis` (lines 136-190).  The chromosome loop iterates
over `set(psi chrom_std) & set(m6a chrom_std)`, whose order Python leaves
unspecified; it is modelled as first-occurrence order over the Psi frame,
one admissible order (every property proved about the result is
order-independent).  Returns the post-run state of the two stored frames and
the emitted pair list. -/
def realColocRun (psi : List RealPsiSite) (m6a : List RealM6aSite) (w : ℤ) :
    (List RealPsiSite × List RealM6aSite) × List RealPair :=
  let psi2 := psi.map realInitPsi
  let m6a2 := m6a.map realInitM6a
  let chroms := ((psi2.map fun r => r.chrom_std.getD "").dedup).filter
    fun c => (m6a2.map fun r => r.chrom_std.getD "").contains c
  ((psi2, m6a2),
    chroms.flatMap fun c =>
      (psi2.filter fun p => decide (p.chrom_std.getD "" = c)).flatMap fun p =>
        (((m6a2.filter fun m => decide (m.chrom_std.getD "" = c)).filter fun m =>
            decide ((((m.center.getD 0 : ℤ) - (p.center.getD 0 : ℤ)).natAbs : ℤ) ≤ w)).map
          fun m =>
            { chrom := c
              psi_pos := p.center.getD 0
              m6a_pos := m.center.getD 0
              distance := ((p.center.getD 0 : ℤ) - (m.center.getD 0 : ℤ)).natAbs }))

/-- Forgets the two derived columns written by `colocalization_analysis`. -/
def stripRealPsi (r : RealPsiSite) : RealPsiSite :=
  { r with chrom_std := none, center := none }

def stripRealM6a (r : RealM6aSite) : RealM6aSite :=
  { r with chrom_std := none, center := none }

/-! Concrete site collections for witnesses and counterexamples. -/

def siteP : SiteRow :=
  { chrom := "chr1", start := 100, stop := 101, strand := none, feature := none, site_id := none }

def siteM1 : SiteRow :=
  { chrom := "chr1", start := 102, stop := 103, strand := none, feature := none, site_id := none }

def siteM2 : SiteRow :=
  { chrom := "chr1", start := 104, stop := 105, strand := none, feature := none, site_id := none }

def realPsiCex : RealPsiSite :=
  { chrom := "1", start := 0, stop := 1, chrom_std := none, center := none }

def realM6aCex : RealM6aSite :=
  { chrom := "1", start := 0, stop := 2, peak_pos := 1, chrom_std := none, center := none }

/-! ## Bridge lemmas between the integer encoding and the exact float
arithmetic of the source -/

/-- Truncating a nonnegative half to an integer is natural division by 2. -/
lemma floor_half (n : ℕ) : ⌊(n : ℚ) / 2⌋ = ((n / 2 : ℕ) : ℤ) := by
  rw [Int.floor_eq_iff]
  constructor
  · rw [le_div_iff (by norm_num : (0:ℚ) < 2)]
    push_cast
    exact_mod_cast Nat.div_mul_le_self n 2
  · rw [div_lt_iff (by norm_num : (0:ℚ) < 2)]
    have h : n < (n / 2 + 1) * 2 := by omega
    push_cast
    exact_mod_cast h

/-- The exact center difference in terms of doubled centers. -/
lemma centerQ_sub (p m : SiteRow) :
    centerQ m - centerQ p = (((center2 m : ℤ) - (center2 p : ℤ) : ℤ) : ℚ) / 2 := by
  unfold centerQ center2
  push_cast
  ring

/-- The absolute center distance in terms of doubled centers. -/
lemma abs_centerQ_sub (p m : SiteRow) :
    |centerQ m - centerQ p| =
      ((((center2 m : ℤ) - (center2 p : ℤ)).natAbs : ℕ) : ℚ) / 2 := by
  rw [centerQ_sub, abs_div]
  congr 1
  push_cast [Int.cast_natAbs]
  ring

/-- Comparing a natural number against twice an integer window transfers
between `ℤ` and `ℚ`. -/
lemma natCast_le_two_mul_iff (n : ℕ) (w : ℤ) :
    ((n : ℤ) ≤ 2 * w) ↔ ((n : ℚ) ≤ (w : ℚ) * 2) := by
  constructor
  · intro h
    have h2 : ((n : ℤ) : ℚ) ≤ ((2 * w : ℤ) : ℚ) := Int.cast_le.2 h
    push_cast at h2
    linarith
  · intro h
    have h2 : ((n : ℤ) : ℚ) ≤ ((2 * w : ℤ) : ℚ) := by
      push_cast
      linarith
    exact Int.cast_le.1 h2

/-- The Boolean row filter agrees with the float comparison of the source:
same chromosome and absolute center distance at most the window. -/
lemma sameChromNear_iff (p m : SiteRow) (w : ℤ) :
    sameChromNear p m w = true ↔
      m.chrom = p.chrom ∧ |centerQ m - centerQ p| ≤ (w : ℚ) := by
  unfold sameChromNear
  rw [Bool.and_eq_true, decide_eq_true_eq, decide_eq_true_eq]
  refine and_congr_right fun _ => ?_
  rw [abs_centerQ_sub, div_le_iff (by norm_num : (0:ℚ) < 2)]
  exact natCast_le_two_mul_iff _ w

/-- `int(psi_center)` in terms of the exact rational center. -/
lemma floor_centerQ (s : SiteRow) : ⌊centerQ s⌋ = ((center2 s / 2 : ℕ) : ℤ) := by
  have h : centerQ s = ((center2 s : ℕ) : ℚ) / 2 := by
    unfold centerQ center2
    push_cast
    ring
  rw [h, floor_half]

/-- `int(distance)` in terms of the exact rational centers. -/
lemma floor_abs_centerQ (p m : SiteRow) :
    ⌊|centerQ p - centerQ m|⌋ =
      ((((center2 p : ℤ) - (center2 m : ℤ)).natAbs / 2 : ℕ) : ℤ) := by
  rw [abs_centerQ_sub m p, floor_half]

/-- Membership characterization of the emitted pair list. -/
lemma mem_findColocalizedSites {psi m6a : List SiteRow} {w : ℤ} {pr : ColocalizedPair} :
    pr ∈ findColocalizedSites psi m6a w ↔
      ∃ p, p ∈ psi ∧ ∃ m, m ∈ m6a ∧ sameChromNear p m w = true ∧ mkPair p m = pr := by
  simp only [findColocalizedSites, List.mem_flatMap, List.mem_map, List.mem_filter]
  tauto

/-- For a fixed Psi row, filtering then mapping is the filterMap of the
spec-level all-pairs contract. -/
lemma filter_map_eq_spec (p : SiteRow) (m6a : List SiteRow) (w : ℤ) :
    ((m6a.filter fun m => sameChromNear p m w).map (mkPair p)) =
      m6a.filterMap fun m =>
        if p.chrom = m.chrom ∧ |centerQ p - centerQ m| ≤ (w : ℚ) then some (mkPair p m)
        else none := by
  induction m6a with
  | nil => rfl
  | cons m t ih =>
    by_cases h : p.chrom = m.chrom ∧ |centerQ p - centerQ m| ≤ (w : ℚ)
    · have hb : sameChromNear p m w = true :=
        (sameChromNear_iff p m w).2 ⟨h.1.symm, by rw [abs_sub_comm]; exact h.2⟩
      simp [List.filter_cons, List.filterMap_cons, hb, h, ih]
    · have hb : sameChromNear p m w = false := by
        rw [Bool.eq_false_iff]
        intro hb
        obtain ⟨h1, h2⟩ := (sameChromNear_iff p m w).1 hb
        exact h ⟨h1.symm, by rwa [abs_sub_comm] at h2⟩
      simp [List.filter_cons, List.filterMap_cons, hb, h, ih]

/-! ## Claim theorems: matcher -/

/-- C1.  For every two site collections and every window `w >= 0`, the
matcher emits exactly one `ColocalizedPair` for every combination of a site
in A and a site in B on the same chromosome whose center distance is at most
`w` (the all-pairs contract, stated as equality with the spec-modelled pair
list); moreover two same-chromosome sites whose centers are exactly `w`
apart are paired, and two sites whose centers are `w + 1` apart are not. -/
theorem coloc_all_pairs_within_window (psi m6a : List SiteRow) (w : ℤ) (hw : 0 ≤ w) :
    findColocalizedSites psi m6a w = allPairsSpec psi m6a w ∧
    (∀ p ∈ psi, ∀ m ∈ m6a, m.chrom = p.chrom → |centerQ p - centerQ m| = (w : ℚ) →
      mkPair p m ∈ findColocalizedSites psi m6a w) ∧
    (∀ p ∈ psi, ∀ m ∈ m6a, |centerQ p - centerQ m| = (w : ℚ) + 1 →
      mkPair p m ∉ findColocalizedSites psi m6a w) := by
  refine ⟨?_, ?_, ?_⟩
  · unfold findColocalizedSites allPairsSpec
    exact congrArg _ (funext fun p => filter_map_eq_spec p m6a w)
  · intro p hp m hm hchrom hdist
    rw [mem_findColocalizedSites]
    refine ⟨p, hp, m, hm, ?_, rfl⟩
    refine (sameChromNear_iff p m w).2 ⟨hchrom, ?_⟩
    rw [abs_sub_comm]
    exact le_of_eq hdist
  · intro p hp m hm hdist hmem
    rw [mem_findColocalizedSites] at hmem
    obtain ⟨p2, _, m2, _, hnear, heq⟩ := hmem
    have hle : (((center2 m2 : ℤ) - (center2 p2 : ℤ)).natAbs : ℤ) ≤ 2 * w := by
      unfold sameChromNear at hnear
      rw [Bool.and_eq_true, decide_eq_true_eq, decide_eq_true_eq] at hnear
      exact hnear.2
    have habs : (((center2 p : ℤ) - (center2 m : ℤ)).natAbs : ℤ) = 2 * w + 2 := by
      rw [abs_centerQ_sub m p] at hdist
      rw [div_eq_iff (by norm_num : (2:ℚ) ≠ 0)] at hdist
      have h4 : ((((center2 p : ℤ) - (center2 m : ℤ)).natAbs : ℤ) : ℚ) =
          ((2 * w + 2 : ℤ) : ℚ) := by
        rw [Int.cast_natCast, hdist]
        push_cast
        ring
      exact Int.cast_inj.1 h4
    have hd : ((center2 p2 : ℤ) - (center2 m2 : ℤ)).natAbs / 2 =
        ((center2 p : ℤ) - (center2 m : ℤ)).natAbs / 2 :=
      congrArg ColocalizedPair.distance heq
    omega

/-- C9.  Enlarging the window only enlarges the emitted pair list: for
`w1 < w2` every pair emitted at window `w1` is emitted at window `w2`. -/
theorem pairs_monotone_in_window (psi m6a : List SiteRow) (w1 w2 : ℤ) (h : w1 < w2) :
    findColocalizedSites psi m6a w1 ⊆ findColocalizedSites psi m6a w2 := by
  intro pr hpr
  rw [mem_findColocalizedSites] at hpr ⊢
  obtain ⟨p, hp, m, hm, hnear, heq⟩ := hpr
  refine ⟨p, hp, m, hm, ?_, heq⟩
  unfold sameChromNear at hnear ⊢
  rw [Bool.and_eq_true, decide_eq_true_eq, decide_eq_true_eq] at hnear ⊢
  exact ⟨hnear.1, by omega⟩

/-- Witness for C9 at concrete inputs. -/
def psiListC : List SiteRow := [siteP]

def m6aListC : List SiteRow := [siteM1, siteM2]

theorem pairs_monotone_in_window_witness :
    (10 : ℤ) < 20 ∧
    findColocalizedSites psiListC m6aListC 10 ⊆ findColocalizedSites psiListC m6aListC 20 :=
  ⟨by decide, pairs_monotone_in_window psiListC m6aListC 10 20 (by decide)⟩

theorem coloc_all_pairs_within_window_witness :
    (0 : ℤ) ≤ 50 ∧
    findColocalizedSites psiListC m6aListC 50 = allPairsSpec psiListC m6aListC 50 :=
  ⟨by decide, (coloc_all_pairs_within_window psiListC m6aListC 50 (by decide)).1⟩

/-- C7 counterexample.  With a negative window the matcher does not fail:
it returns an ordinary (empty) result, never `InvalidWindow`. -/
theorem negative_window_no_error_counterexample :
    findColocalizedSitesE [siteP] [siteM1] (-1) = Except.ok [] ∧
    findColocalizedSitesE [siteP] [siteM1] (-1) ≠ Except.error MatchError.invalidWindow := by
  refine ⟨by rfl, ?_⟩
  intro h
  exact Except.noConfusion h

/-- C7 as amended.  A negative window is accepted without any error: the
source performs no validation, every distance test fails, so the matcher
returns `ok` with an empty pair list and both collections fully unmatched. -/
theorem negative_window_returns_empty (psi m6a : List SiteRow) (w : ℤ) (h : w < 0) :
    findColocalizedSitesE psi m6a w = Except.ok [] ∧
    (colocRun psi m6a w).2 = [] ∧
    psiOnly (assignIds "PSI_" psi) ((colocRun psi m6a w).2) = assignIds "PSI_" psi ∧
    m6aOnly (assignIds "M6A_" m6a) ((colocRun psi m6a w).2) = assignIds "M6A_" m6a := by
  have hempty : ∀ a b : List SiteRow, findColocalizedSites a b w = [] := by
    intro a b
    rw [List.eq_nil_iff_forall_not_mem]
    intro pr hpr
    rw [mem_findColocalizedSites] at hpr
    obtain ⟨p, _, m, _, hnear, _⟩ := hpr
    unfold sameChromNear at hnear
    rw [Bool.and_eq_true, decide_eq_true_eq, decide_eq_true_eq] at hnear
    have := hnear.2
    omega
  have hrun : (colocRun psi m6a w).2 = [] := by
    unfold colocRun
    exact hempty _ _
  refine ⟨?_, hrun, ?_, ?_⟩
  · unfold findColocalizedSitesE
    rw [hempty]
  · rw [hrun]
    unfold psiOnly pairPsiIds
    simp
  · rw [hrun]
    unfold m6aOnly pairM6aIds
    simp

theorem negative_window_returns_empty_witness :
    findColocalizedSitesE psiListC m6aListC (-1) = Except.ok [] ∧
    (colocRun psiListC m6aListC (-1)).2 = [] ∧
    psiOnly (assignIds "PSI_" psiListC) ((colocRun psiListC m6aListC (-1)).2) =
      assignIds "PSI_" psiListC ∧
    m6aOnly (assignIds "M6A_" m6aListC) ((colocRun psiListC m6aListC (-1)).2) =
      assignIds "M6A_" m6aListC :=
  negative_window_returns_empty psiListC m6aListC (-1) (by decide)

/-- C3 counterexample.  With one Psi site and two nearby m6A sites the
matcher emits two pairs, yet the third count reported by `get_venn_counts`
is 1 (the number of distinct matched Psi ids), not `size(pairs) = 2`. -/
theorem venn_counts_counterexample :
    getVennCounts psiListC m6aListC 50 = (0, 0, 1) ∧
    (findColocalizedSites (assignIds "PSI_" psiListC) (assignIds "M6A_" m6aListC) 50).length
      = 2 := by
  decide

/-- C3 as amended.  The three counts are `size(unmatched_a)`,
`size(unmatched_b)` and the number of distinct site-A ids participating in
at least one pair (not the number of pairs); a site is unmatched exactly
when no emitted pair carries its id. -/
theorem venn_counts_amended (psi m6a : List SiteRow) (w : ℤ) :
    (getVennCounts psi m6a w).1 =
      ((assignIds "PSI_" psi).filter fun r =>
        decide (∀ pr ∈ findColocalizedSites (assignIds "PSI_" psi) (assignIds "M6A_" m6a) w,
          r.site_id ≠ some pr.psi_id)).length ∧
    (getVennCounts psi m6a w).2.1 =
      ((assignIds "M6A_" m6a).filter fun r =>
        decide (∀ pr ∈ findColocalizedSites (assignIds "PSI_" psi) (assignIds "M6A_" m6a) w,
          r.site_id ≠ some pr.m6a_id)).length ∧
    (getVennCounts psi m6a w).2.2 =
      ((findColocalizedSites (assignIds "PSI_" psi) (assignIds "M6A_" m6a) w).map
        (fun pr => pr.psi_id)).dedup.length := by
  refine ⟨?_, ?_, rfl⟩
  · unfold getVennCounts psiOnly
    dsimp only
    congr 1
    apply List.filter_congr
    intro r _
    rw [Bool.eq_iff_iff, Bool.not_eq_true', List.any_eq_false, decide_eq_true_eq]
    unfold pairPsiIds
    constructor
    · intro h pr hpr heq
      have h2 := h pr.psi_id (List.mem_map_of_mem _ hpr)
      simp only [decide_eq_true_eq] at h2
      exact h2 heq
    · intro h i hi
      rw [List.mem_map] at hi
      obtain ⟨pr, hpr, rfl⟩ := hi
      simp only [decide_eq_true_eq]
      exact h pr hpr
  · unfold getVennCounts m6aOnly
    dsimp only
    congr 1
    apply List.filter_congr
    intro r _
    rw [Bool.eq_iff_iff, Bool.not_eq_true', List.any_eq_false, decide_eq_true_eq]
    unfold pairM6aIds
    constructor
    · intro h pr hpr heq
      have h2 := h pr.m6a_id (List.mem_map_of_mem _ hpr)
      simp only [decide_eq_true_eq] at h2
      exact h2 heq
    · intro h i hi
      rw [List.mem_map] at hi
      obtain ⟨pr, hpr, rfl⟩ := hi
      simp only [decide_eq_true_eq]
      exact h pr hpr

/-- C6 counterexample.  Running the matcher does mutate the input
collections: the analyzer constructor writes a `site_id` column into both
caller-owned frames, so the post-run collections differ from the inputs. -/
theorem matcher_mutates_inputs_counterexample :
    (colocRun [siteP] [siteM1] 50).1 ≠ ([siteP], [siteM1]) := by
  decide

/-- C6 as amended.  Matching never changes the value of any pre-existing
field of any site and never reorders or drops sites; the only mutation is
the derived columns written into the stored input frames (`site_id` in
`ColocalizationAnalyzer.__init__`; `chrom_std` and `center` in
`RealDataAnalyzer.colocalization_analysis`). -/
theorem matcher_preserves_preexisting_fields :
    (∀ (psi m6a : List SiteRow) (w : ℤ),
      ((colocRun psi m6a w).1.1.map stripId = psi.map stripId) ∧
      ((colocRun psi m6a w).1.2.map stripId = m6a.map stripId)) ∧
    (∀ (psi : List RealPsiSite) (m6a : List RealM6aSite) (w : ℤ),
      ((realColocRun psi m6a w).1.1.map stripRealPsi = psi.map stripRealPsi) ∧
      ((realColocRun psi m6a w).1.2.map stripRealM6a = m6a.map stripRealM6a)) := by
  have key : ∀ (tag : String) (rows : List SiteRow),
      (assignIds tag rows).map stripId = rows.map stripId := by
    intro tag rows
    unfold assignIds
    rw [List.map_map]
    have h : (stripId ∘ fun ir : ℕ × SiteRow =>
        { ir.2 with site_id := some (tag ++ toString ir.1) }) = (stripId ∘ Prod.snd) := by
      funext ir
      rfl
    rw [h, ← List.map_map, List.enum_map_snd]
  constructor
  · intro psi m6a w
    exact ⟨key "PSI_" psi, key "M6A_" m6a⟩
  · intro psi m6a w
    constructor
    · show (psi.map realInitPsi).map stripRealPsi = psi.map stripRealPsi
      rw [List.map_map]
      rfl
    · show (m6a.map realInitM6a).map stripRealM6a = m6a.map stripRealM6a
      rw [List.map_map]
      rfl

/-- C10 counterexample.  In `RealDataAnalyzer.colocalization_analysis` the
recorded distance is the absolute difference of the two already-floored
centers, not the truncation of the exact midpoint difference: for a Psi site
`[0,1)` (midpoint 1/2, floored to 0) and an m6A site `[0,2)` (peak position
1), the emitted pair carries distance 1 while the truncated difference of
the untruncated midpoints is `int(|1/2 - 1|) = 0`. -/
theorem real_pair_distance_counterexample :
    (realColocRun [realPsiCex] [realM6aCex] 50).2 =
      [{ chrom := "1", psi_pos := 0, m6a_pos := 1, distance := 1 }] ∧
    ⌊|(((realPsiCex.start : ℚ) + (realPsiCex.stop : ℚ)) / 2 -
        (((realM6aCex.start : ℚ) + (realM6aCex.stop : ℚ)) / 2))|⌋ = 0 ∧
    (1 : ℕ) ≠ 0 := by
  refine ⟨by decide, ?_, by decide⟩
  have h : |(((realPsiCex.start : ℚ) + (realPsiCex.stop : ℚ)) / 2 -
      (((realM6aCex.start : ℚ) + (realM6aCex.stop : ℚ)) / 2))| = ((1 : ℕ) : ℚ) / 2 := by
    show |(((0:ℕ) : ℚ) + ((1:ℕ) : ℚ)) / 2 - (((0:ℕ) : ℚ) + ((2:ℕ) : ℚ)) / 2| = _
    rw [show (((0:ℕ) : ℚ) + ((1:ℕ) : ℚ)) / 2 - (((0:ℕ) : ℚ) + ((2:ℕ) : ℚ)) / 2
        = -(((1:ℕ) : ℚ) / 2) by push_cast; ring]
    rw [abs_neg, abs_of_nonneg (by positivity)]
  rw [h, floor_half]
  decide

/-- C10 as stated holds for `ColocalizationAnalyzer` and as amended for
`RealDataAnalyzer`.  Every pair emitted by `find_colocalized_sites` carries
the common chromosome of its two member sites, the floored exact midpoints
as positions, and the truncation of the exact midpoint distance, at most the
window.  Every pair emitted by `colocalization_analysis` carries the
`chr`-stripped chromosome of both members, the floored Psi midpoint and the
m6A `peak_pos` as positions, and the absolute difference of those two
already-floored positions (not the truncated exact midpoint distance), at
most the window. -/
theorem pair_record_consistency_amended :
    (∀ (psi m6a : List SiteRow) (w : ℤ) (pr : ColocalizedPair),
      pr ∈ findColocalizedSites psi m6a w →
      ∃ p, p ∈ psi ∧ ∃ m, m ∈ m6a ∧
        pr.chrom = p.chrom ∧ pr.chrom = m.chrom ∧
        (pr.psi_pos : ℤ) = ⌊centerQ p⌋ ∧ (pr.m6a_pos : ℤ) = ⌊centerQ m⌋ ∧
        (pr.distance : ℤ) = ⌊|centerQ p - centerQ m|⌋ ∧ (pr.distance : ℤ) ≤ w) ∧
    (∀ (psi : List RealPsiSite) (m6a : List RealM6aSite) (w : ℤ) (pr : RealPair),
      pr ∈ (realColocRun psi m6a w).2 →
      ∃ p, p ∈ psi ∧ ∃ m, m ∈ m6a ∧
        pr.chrom = stripChr p.chrom ∧ pr.chrom = stripChr m.chrom ∧
        pr.psi_pos = (p.start + p.stop) / 2 ∧ pr.m6a_pos = m.peak_pos ∧
        pr.distance = ((pr.psi_pos : ℤ) - (pr.m6a_pos : ℤ)).natAbs ∧
        (pr.distance : ℤ) ≤ w) := by
  constructor
  · intro psi m6a w pr hpr
    rw [mem_findColocalizedSites] at hpr
    obtain ⟨p, hp, m, hm, hnear, heq⟩ := hpr
    unfold sameChromNear at hnear
    rw [Bool.and_eq_true, decide_eq_true_eq, decide_eq_true_eq] at hnear
    refine ⟨p, hp, m, hm, ?_, ?_, ?_, ?_, ?_, ?_⟩
    · rw [← heq]; rfl
    · rw [← heq]; exact hnear.1.symm
    · rw [← heq]; exact (floor_centerQ p).symm
    · rw [← heq]; exact (floor_centerQ m).symm
    · rw [← heq]; exact (floor_abs_centerQ p m).symm
    · rw [← heq]
      have h2 := hnear.2
      show ((((center2 p : ℤ) - (center2 m : ℤ)).natAbs / 2 : ℕ) : ℤ) ≤ w
      omega
  · intro psi m6a w pr hpr
    simp only [realColocRun, List.mem_flatMap, List.mem_filter, List.mem_map,
      List.mem_dedup, decide_eq_true_eq] at hpr
    obtain ⟨c, hc, p, ⟨⟨p0, hp0, hpinit⟩, hpstd⟩, m, ⟨⟨⟨m0, hm0, hminit⟩, hmstd⟩, hmnear⟩,
      hrec⟩ := hpr
    subst hpinit
    subst hminit
    subst hrec
    simp only [realInitPsi, realInitM6a, Option.getD_some] at hpstd hmstd hmnear ⊢
    refine ⟨p0, hp0, m0, hm0, hpstd.symm, hmstd.symm, rfl, rfl, ?_, ?_⟩
    · dsimp only
    · dsimp only
      omega

/-- Witness for the C10 theorem at a concrete emitted pair. -/
def prEx : ColocalizedPair :=
  { psi_id := "PSI_0", m6a_id := "M6A_0", chrom := "chr1", psi_pos := 100, m6a_pos := 102
    distance := 2, psi_feature := "Unknown", m6a_feature := "Unknown"
    psi_strand := "+", m6a_strand := "+" }

theorem pair_record_consistency_amended_witness :
    ∃ p, p ∈ assignIds "PSI_" psiListC ∧ ∃ m, m ∈ assignIds "M6A_" m6aListC ∧
      prEx.chrom = p.chrom ∧ prEx.chrom = m.chrom ∧
      (prEx.psi_pos : ℤ) = ⌊centerQ p⌋ ∧ (prEx.m6a_pos : ℤ) = ⌊centerQ m⌋ ∧
      (prEx.distance : ℤ) = ⌊|centerQ p - centerQ m|⌋ ∧ (prEx.distance : ℤ) ≤ 50 :=
  pair_record_consistency_amended.1 (assignIds "PSI_" psiListC) (assignIds "M6A_" m6aListC)
    50 prEx (by decide)

/-! ## Claim theorems: gene-region classifier -/

/-- C4.  For every gene with positive length and either strand (and likewise
for every mock gene), the three region sub-intervals are pairwise disjoint
half-open intervals whose union is the whole gene body `[start, end)`. -/
theorem regions_partition_gene_body :
    (∀ g : Gene, g.start < g.stop →
      Disjoint (regionIco g Region.utr5) (regionIco g Region.cds) ∧
      Disjoint (regionIco g Region.utr5) (regionIco g Region.utr3) ∧
      Disjoint (regionIco g Region.cds) (regionIco g Region.utr3) ∧
      regionIco g Region.utr5 ∪ regionIco g Region.cds ∪ regionIco g Region.utr3 =
        Finset.Ico g.start g.stop) ∧
    (∀ g : MockGene, 0 < g.gene_length →
      Disjoint (mockRegionIco g Region.utr5) (mockRegionIco g Region.cds) ∧
      Disjoint (mockRegionIco g Region.utr5) (mockRegionIco g Region.utr3) ∧
      Disjoint (mockRegionIco g Region.cds) (mockRegionIco g Region.utr3) ∧
      mockRegionIco g Region.utr5 ∪ mockRegionIco g Region.cds ∪ mockRegionIco g Region.utr3 =
        Finset.Ico g.gene_start (mockGeneEnd g)) := by
  constructor
  · intro g hg
    rcases g with ⟨gc, gs, ge, gst⟩
    simp only [Gene.start, Gene.stop] at hg
    cases gst <;>
      simp only [regionIco, regionBounds, utr5End, cdsEnd, u5len, cdslen, u3len, geneLength,
        min_self] <;>
      refine ⟨?_, ?_, ?_, ?_⟩ <;>
      first
        | (rw [Finset.disjoint_left]
           intro x hx hx2
           simp only [Finset.mem_Ico] at hx hx2
           omega)
        | (apply Finset.ext
           intro x
           simp only [Finset.mem_union, Finset.mem_Ico]
           omega)
  · intro g hg
    rcases g with ⟨gc, gs, gl⟩
    simp only [MockGene.gene_length] at hg
    simp only [mockRegionIco, mockRegionBounds, mockUtr5End, mockCdsEnd, mockGeneEnd]
    refine ⟨?_, ?_, ?_, ?_⟩ <;>
      first
        | (rw [Finset.disjoint_left]
           intro x hx hx2
           simp only [Finset.mem_Ico] at hx hx2
           omega)
        | (apply Finset.ext
           intro x
           simp only [Finset.mem_union, Finset.mem_Ico]
           omega)

theorem regions_partition_gene_body_witness :
    geneTen.start < geneTen.stop ∧
    regionIco geneTen Region.utr5 ∪ regionIco geneTen Region.cds ∪
      regionIco geneTen Region.utr3 = Finset.Ico geneTen.start geneTen.stop :=
  ⟨by decide, (regions_partition_gene_body.1 geneTen (by decide)).2.2.2⟩

/-- C2 counterexample.  For the real minus-strand gene WASH7P (length 15443)
the code draws the 5-prime UTR from `[end - utr3_length, end) = [26716, 29806)`,
not from `[end - u5, end) = [26718, 29806)` as the claim states. -/
theorem minus_strand_mirror_counterexample :
    regionBounds geneWASH7P Region.utr5 = (26716, 29806) ∧
    (geneWASH7P.stop - u5len geneWASH7P, geneWASH7P.stop) = (26718, 29806) ∧
    regionBounds geneWASH7P Region.utr5 ≠
      (geneWASH7P.stop - u5len geneWASH7P, geneWASH7P.stop) := by
  decide

/-- C2 as amended.  For a minus-strand gene the three sub-intervals use the
same cut points as the plus strand with the 5-prime and 3-prime labels
swapped: the 5-prime UTR is `[start+u5+cds, end)`, the CDS
`[start+u5, start+u5+cds)`, the 3-prime UTR `[start, start+u5)`.
Equivalently the 5-prime region sits at the
genomic end but has width `utr3 = L - u5 - cds`; it equals the mirror-image
interval `[end-u5, end)` of the claim exactly when `2*u5 + cds = L`. -/
theorem minus_strand_regions_amended (g : Gene) (hminus : g.strand = Strand.minus)
    (hlen : g.start < g.stop) :
    regionBounds g Region.utr5 = (g.start + u5len g + cdslen g, g.stop) ∧
    regionBounds g Region.cds = (g.start + u5len g, g.start + u5len g + cdslen g) ∧
    regionBounds g Region.utr3 = (g.start, g.start + u5len g) ∧
    (regionBounds g Region.utr5 = (g.stop - u5len g, g.stop) ↔
      2 * u5len g + cdslen g = geneLength g) := by
  rcases g with ⟨gc, gs, ge, gst⟩
  simp only [Gene.strand] at hminus
  subst hminus
  simp only [Gene.start, Gene.stop] at hlen
  refine ⟨?_, ?_, ?_, ?_⟩
  · simp only [regionBounds, utr5End, cdsEnd, u5len, cdslen, u3len, geneLength,
      Gene.start, Gene.stop, Prod.mk.injEq, and_true]
    omega
  · simp only [regionBounds, utr5End, cdsEnd, u5len, cdslen, u3len, geneLength, min_self,
      Gene.start, Gene.stop, Prod.mk.injEq]
    constructor <;> omega
  · simp only [regionBounds, utr5End, cdsEnd, u5len, cdslen, u3len, geneLength,
      Gene.start, Gene.stop, Prod.mk.injEq, true_and]
    omega
  · simp only [regionBounds, utr5End, cdsEnd, u5len, cdslen, u3len, geneLength,
      Gene.start, Gene.stop, Prod.mk.injEq, and_true]
    constructor
    · intro h
      omega
    · intro h
      omega

theorem minus_strand_regions_amended_witness :
    regionBounds geneWASH7P Region.utr5 =
      (geneWASH7P.start + u5len geneWASH7P + cdslen geneWASH7P, geneWASH7P.stop) ∧
    regionBounds geneWASH7P Region.cds =
      (geneWASH7P.start + u5len geneWASH7P,
        geneWASH7P.start + u5len geneWASH7P + cdslen geneWASH7P) ∧
    regionBounds geneWASH7P Region.utr3 =
      (geneWASH7P.start, geneWASH7P.start + u5len geneWASH7P) ∧
    (regionBounds geneWASH7P Region.utr5 =
        (geneWASH7P.stop - u5len geneWASH7P, geneWASH7P.stop) ↔
      2 * u5len geneWASH7P + cdslen geneWASH7P = geneLength geneWASH7P) :=
  minus_strand_regions_amended geneWASH7P rfl (by decide)

/-- C5.  The classifier computes `relative_position = (p - start) / L` in
raw genomic direction on both strands (flipping the strand field does not
change it), and the value lies in `[0, 1]` for every in-gene position. -/
theorem relative_position_raw_and_bounded (g : Gene) (p : ℕ)
    (h1 : g.start ≤ p) (h2 : p < g.stop) :
    relative_pos g p = ((p : ℚ) - (g.start : ℚ)) / ((geneLength g : ℕ) : ℚ) ∧
    relative_pos { g with strand := Strand.plus } p = relative_pos g p ∧
    relative_pos { g with strand := Strand.minus } p = relative_pos g p ∧
    0 ≤ relative_pos g p ∧ relative_pos g p ≤ 1 := by
  have hss : g.start < g.stop := lt_of_le_of_lt h1 h2
  have hL : (0 : ℚ) < (g.stop : ℚ) - (g.start : ℚ) := by
    rw [sub_pos]
    exact_mod_cast hss
  refine ⟨?_, rfl, rfl, ?_, ?_⟩
  · unfold relative_pos geneLength
    rw [Nat.cast_sub (le_of_lt hss)]
  · unfold relative_pos
    apply div_nonneg
    · rw [sub_nonneg]
      exact_mod_cast h1
    · linarith
  · unfold relative_pos
    rw [div_le_one hL]
    have hp : (p : ℚ) ≤ (g.stop : ℚ) := by
      exact_mod_cast le_of_lt h2
    linarith

theorem relative_position_raw_and_bounded_witness :
    relative_pos geneTen 60500 =
      ((60500 : ℚ) - (geneTen.start : ℚ)) / ((geneLength geneTen : ℕ) : ℚ) ∧
    relative_pos { geneTen with strand := Strand.plus } 60500 = relative_pos geneTen 60500 ∧
    relative_pos { geneTen with strand := Strand.minus } 60500 = relative_pos geneTen 60500 ∧
    0 ≤ relative_pos geneTen 60500 ∧ relative_pos geneTen 60500 ≤ 1 :=
  relative_position_raw_and_bounded geneTen 60500 (by decide) (by decide)

/-- C8 counterexample.  The gene `[100, 101)` has positive length 1 with
`u5 = int(0.2) = 0`, and assigning a site to its (empty) 5-prime UTR raises
the `ValueError` of `np.random.randint` - a range error - contradicting the
claim that no range error can occur. -/
theorem empty_region_range_error_counterexample :
    0 < geneLength geneTiny ∧
    samplePosBounds geneTiny Region.utr5 = Except.error GenError.rangeError := by
  constructor
  · decide
  · rfl

/-- C8 as amended.  For genes of positive length no division error can
occur (`relative_pos` always evaluates), and drawing a position from a
nonempty sub-interval succeeds; but when `floor(0.2*L) = 0` or
`floor(0.6*L) = 0` makes a sub-interval empty, assigning a site to that
sub-interval raises the range error of `np.random.randint` - the empty
sub-interval never receives a site only because the attempt fails. -/
theorem small_gene_sampling_amended (g : Gene) (r : Region) (p : ℕ)
    (h : 0 < geneLength g) :
    relPosE g p = Except.ok (relative_pos g p) ∧
    (samplePosBounds g r = Except.error GenError.rangeError ↔
      (regionBounds g r).2 ≤ (regionBounds g r).1) ∧
    ((regionBounds g r).1 < (regionBounds g r).2 →
      samplePosBounds g r = Except.ok (regionBounds g r)) := by
  refine ⟨?_, ?_, ?_⟩
  · unfold relPosE
    rw [if_neg (by omega)]
  · unfold samplePosBounds
    by_cases hb : (regionBounds g r).1 < (regionBounds g r).2
    · rw [if_pos hb]
      constructor
      · intro hc
        exact absurd hc (by simp)
      · intro hc
        omega
    · rw [if_neg hb]
      constructor
      · intro _
        omega
      · intro _
        rfl
  · intro hb
    unfold samplePosBounds
    rw [if_pos hb]

theorem small_gene_sampling_amended_witness :
    relPosE geneTiny 100 = Except.ok (relative_pos geneTiny 100) ∧
    (samplePosBounds geneTiny Region.utr5 = Except.error GenError.rangeError ↔
      (regionBounds geneTiny Region.utr5).2 ≤ (regionBounds geneTiny Region.utr5).1) ∧
    ((regionBounds geneTiny Region.utr5).1 < (regionBounds geneTiny Region.utr5).2 →
      samplePosBounds geneTiny Region.utr5 = Except.ok (regionBounds geneTiny Region.utr5)) :=
  small_gene_sampling_amended geneTiny Region.utr5 100 (by decide)
